import Mathlib

/-!
Shallow embedding of the Report Aggregation & Rendering Engine of
`src/services/PDFReportService.js` (class `PDFReportService`), together with
proofs settling the frozen claims about it.

Conventions used throughout:
* JavaScript objects with optional fields become structures with `Option`
  fields; `undefined` is `none`.
* JavaScript numbers holding counts, scores and byte values are modelled as
  `Nat`/`Int`; the real-valued `Math` operations are modelled over `ℚ` with
  exact arithmetic: `Math.round x` is `⌊x + 1/2⌋` (round half up) and
  `Math.floor(Math.log n / Math.log 1024)` is the exact integer base-1024
  logarithm, which agrees with the double-precision source on the magnitudes
  the claims are about.
* Code that can throw (`JSON.parse`, the `permissionByRisk[level].includes`
  access in `analyzePermissions`) is modelled in `Except String`.
* Rendered HTML fragments are reproduced with their markup and dynamic parts
  verbatim; purely cosmetic layout whitespace between tags is elided.
-/

/-- JS string-or-default `a || d` for a possibly-undefined string `a`
(`undefined` and the empty string are falsy). -/
def jsOr : Option String → String → String
  | some s, d => if s = "" then d else s
  | none, d => d

/-- JS template interpolation of a possibly-undefined string
(`undefined` prints as "undefined"). -/
def jsShow : Option String → String
  | some s => s
  | none => "undefined"

/-- `[...new Set(l)]` with the seen elements accumulated: deduplicate keeping
the first occurrence of each element, preserving order (JS `Set` iterates in
insertion order). -/
def jsDedupAux {α : Type} [DecidableEq α] (seen : List α) : List α → List α
  | [] => []
  | x :: xs => if x ∈ seen then jsDedupAux seen xs else x :: jsDedupAux (x :: seen) xs

/-- `[...new Set(l)]`. -/
def jsDedup {α : Type} [DecidableEq α] (l : List α) : List α := jsDedupAux [] l

/-- Executable form of `Math.round (a / b)` for natural `a` and positive
natural `b`: `⌊a/b + 1/2⌋ = ⌊(2a+b)/(2b)⌋`, computed with natural division. -/
def jsRoundFrac (a b : Nat) : Nat := (2 * a + b) / (2 * b)

/-- Fuel-driven integer base-1024 logarithm; with fuel at least `1` plus the
number of divisions needed this computes `⌊log n / log 1024⌋` for `n ≥ 1`. -/
def log1024Aux : Nat → Nat → Nat
  | 0, _ => 0
  | fuel + 1, n => if n < 1024 then 0 else log1024Aux fuel (n / 1024) + 1

/-- Exact integer model of `Math.floor(Math.log(n) / Math.log(1024))` for
`n ≥ 1`. The double-precision quotient the source computes agrees with the
exact logarithm at every positive count up to `1024^5 - 1024` and at `1024^5`
itself (where the quotient is exactly `5.0`), but in a window of a few
integers just below `1024^5` the correctly rounded quotient already rounds up
to `5.0` while the exact logarithm is still `4`; theorems that quantify over
byte counts therefore stop `1024` short of that boundary and treat the
boundary point separately. -/
def log1024 (n : Nat) : Nat := log1024Aux n n

/-- JS number-to-string for a value held in hundredths (the result of
`Math.round(x * 100) / 100`): integral values print with no decimal point and
trailing zero decimals are not printed. -/
def formatNum2 (n : Nat) : String :=
  if n % 100 = 0 then toString (n / 100)
  else if n % 10 = 0 then toString (n / 100) ++ "." ++ toString (n / 10 % 10)
  else toString (n / 100) ++ "." ++ (if n % 100 < 10 then "0" else "") ++ toString (n % 100)

/-- `PDFReportService.formatBytes` (source lines 233-241): `0` maps to
`"0 Bytes"`, otherwise the value is divided by `1024 ^ ⌊log_1024 value⌋`,
rounded to two decimal places and suffixed with `sizes[i]`; an index past the
end of the `sizes` array yields the string `"undefined"` exactly as the JS
indexing does. The exponent uses `log1024`, whose fidelity window relative to
the source's double-precision computation is described at its definition. -/
def formatBytes (bytes : Nat) : String :=
  if bytes = 0 then "0 Bytes"
  else
    formatNum2 (jsRoundFrac (bytes * 100) (1024 ^ log1024 bytes)) ++ " " ++
      (["Bytes", "KB", "MB", "GB", "TB"].getD (log1024 bytes) "undefined")

/-- One entry of `riskAnalysis.riskFactors`. -/
structure RiskFactor where
  permission : String
  level : Option String
deriving DecidableEq

/-- The `riskAnalysis` object attached to an app record. -/
structure RiskAnalysis where
  riskLevel : Option String
  riskScore : Option Int
  highRiskCount : Option Int
  riskFactors : Option (List RiskFactor)
deriving DecidableEq

/-- The `dataUsage` object attached to an app record (non-negative byte
counts). -/
structure DataUsage where
  total : Option Nat
  wifi : Option Nat
  mobile : Option Nat
deriving DecidableEq

/-- An externally supplied app record, as consumed by the service. -/
structure App where
  name : Option String
  appName : Option String
  packageName : Option String
  category : Option String
  permissions : Option (List String)
  riskAnalysis : Option RiskAnalysis
  dataUsage : Option DataUsage
deriving DecidableEq

/-- Stable descending insertion of `x` into `l` by key `f`: `x` passes every
element strictly greater than it and lands before the first element whose key
is less than or equal to its own. -/
def insertDesc {α : Type} (f : α → Int) (x : α) : List α → List α
  | [] => [x]
  | y :: ys => if f x < f y then y :: insertDesc f x ys else x :: y :: ys

/-- Model of `Array.prototype.sort` with comparator `(a, b) => f b - f a`:
the (ECMAScript-mandated stable) sort into non-increasing key order. -/
def sortDesc {α : Type} (f : α → Int) : List α → List α
  | [] => []
  | x :: xs => insertDesc f x (sortDesc f xs)

/-- The accumulator of the single `forEach` pass of `calculateStatistics`. -/
structure StatAcc where
  highRisk : Nat
  mediumRisk : Nat
  lowRisk : Nat
  noRisk : Nat
  totalPermissions : Nat
  totalDataUsage : Nat
deriving DecidableEq

/-- `app.riskAnalysis?.riskLevel || 'NO_RISK'`. -/
def statRiskLevel (app : App) : String :=
  jsOr (app.riskAnalysis.bind RiskAnalysis.riskLevel) "NO_RISK"

/-- `app.dataUsage?.total || 0`. -/
def totalOf (app : App) : Nat :=
  (app.dataUsage.bind DataUsage.total).getD 0

/-- One iteration of the `apps.forEach` body of `calculateStatistics`
(source lines 119-139). -/
def statStep (acc : StatAcc) (app : App) : StatAcc :=
  let acc1 :=
    if statRiskLevel app = "HIGH_RISK" then { acc with highRisk := acc.highRisk + 1 }
    else if statRiskLevel app = "MEDIUM_RISK" then { acc with mediumRisk := acc.mediumRisk + 1 }
    else if statRiskLevel app = "LOW_RISK" then { acc with lowRisk := acc.lowRisk + 1 }
    else { acc with noRisk := acc.noRisk + 1 }
  { acc1 with
      totalPermissions := acc1.totalPermissions + (jsDedup (app.permissions.getD [])).length
      totalDataUsage := acc1.totalDataUsage + totalOf app }

/-- The `Statistics` snapshot returned by `calculateStatistics`. -/
structure Statistics where
  totalApps : Nat
  highRisk : Nat
  mediumRisk : Nat
  lowRisk : Nat
  noRisk : Nat
  riskPercentage : Nat
  averagePermissions : Nat
  totalDataUsage : String
deriving DecidableEq

/-- `PDFReportService.calculateStatistics` (source lines 108-151);
`Math.round((highRisk / totalApps) * 100)` is `jsRoundFrac (highRisk * 100)
totalApps` and likewise for the permission average. -/
def calculateStatistics (apps : List App) : Statistics :=
  let acc := apps.foldl statStep ⟨0, 0, 0, 0, 0, 0⟩
  { totalApps := apps.length
    highRisk := acc.highRisk
    mediumRisk := acc.mediumRisk
    lowRisk := acc.lowRisk
    noRisk := acc.noRisk
    riskPercentage :=
      if apps.length > 0 then jsRoundFrac (acc.highRisk * 100) apps.length else 0
    averagePermissions :=
      if apps.length > 0 then jsRoundFrac acc.totalPermissions apps.length else 0
    totalDataUsage := formatBytes acc.totalDataUsage }

/-- `app.riskAnalysis?.riskLevel === 'HIGH_RISK'`. -/
def isHighRiskApp (app : App) : Bool :=
  app.riskAnalysis.bind RiskAnalysis.riskLevel == some "HIGH_RISK"

/-- `app.riskAnalysis?.riskLevel === 'MEDIUM_RISK'`. -/
def isMediumRiskApp (app : App) : Bool :=
  app.riskAnalysis.bind RiskAnalysis.riskLevel == some "MEDIUM_RISK"

/-- `app.riskAnalysis?.riskLevel === 'LOW_RISK'`. -/
def isLowRiskApp (app : App) : Bool :=
  app.riskAnalysis.bind RiskAnalysis.riskLevel == some "LOW_RISK"

/-- `!app.riskAnalysis || app.riskAnalysis.riskLevel === 'NO_RISK'`. -/
def isNoRiskApp (app : App) : Bool :=
  app.riskAnalysis.isNone || (app.riskAnalysis.bind RiskAnalysis.riskLevel == some "NO_RISK")

/-- The four risk-tier groups returned by `categorizeByRisk`. -/
structure RiskCategories where
  highRisk : List App
  mediumRisk : List App
  lowRisk : List App
  noRisk : List App
deriving DecidableEq

/-- `PDFReportService.categorizeByRisk` (source lines 153-160). -/
def categorizeByRisk (apps : List App) : RiskCategories :=
  { highRisk := apps.filter isHighRiskApp
    mediumRisk := apps.filter isMediumRiskApp
    lowRisk := apps.filter isLowRiskApp
    noRisk := apps.filter isNoRiskApp }

/-- The sort key `app.riskAnalysis.riskScore || 0` used by `getTopRiskyApps`
(only evaluated on apps that passed the `riskAnalysis` filter). -/
def riskScoreOf (app : App) : Int :=
  (app.riskAnalysis.bind RiskAnalysis.riskScore).getD 0

/-- `PDFReportService.getTopRiskyApps` (source lines 162-167): filter to apps
carrying a `riskAnalysis`, stable-sort descending by `riskScore || 0`, take
the first `limit` (default 10). -/
def getTopRiskyApps (apps : List App) (limit : Nat := 10) : List App :=
  (sortDesc riskScoreOf (apps.filter (fun app => app.riskAnalysis.isSome))).take limit

/-- Ordered association list lookup with JS-object default `|| 0`:
`permissionCount[p] || 0`. -/
def lookupD : List (String × Nat) → String → Nat
  | [], _ => 0
  | (q, n) :: rest, p => if q = p then n else lookupD rest p

/-- `permissionCount[p] = (permissionCount[p] || 0) + 1` on an ordered
association list modelling a JS object with (non-numeric) string keys, which
preserves insertion order and appends a new key at the end. -/
def bump : List (String × Nat) → String → List (String × Nat)
  | [], p => [(p, 1)]
  | (q, n) :: rest, p => if q = p then (q, n + 1) :: rest else (q, n) :: bump rest p

/-- `if (!l.includes(x)) l.push(x)`. -/
def addUnique (l : List String) (x : String) : List String :=
  if x ∈ l then l else l ++ [x]

/-- The `permissionByRisk` object of `analyzePermissions`: three arrays of
distinct permission identifiers keyed HIGH / MEDIUM / LOW. -/
structure RiskBuckets where
  high : List String
  med : List String
  low : List String
deriving DecidableEq

/-- One iteration of the `riskFactors.forEach` body (source lines 183-188):
`permissionByRisk[factor.level]` succeeds for the three known keys and is
`undefined` otherwise, in which case the `.includes` access throws a
`TypeError`. -/
def addFactor (b : RiskBuckets) (f : RiskFactor) : Except String RiskBuckets :=
  if f.level == some "HIGH" then .ok { b with high := addUnique b.high f.permission }
  else if f.level == some "MEDIUM" then .ok { b with med := addUnique b.med f.permission }
  else if f.level == some "LOW" then .ok { b with low := addUnique b.low f.permission }
  else .error "TypeError: cannot read property includes of undefined"

/-- One iteration of the `apps.forEach` body of `analyzePermissions`
(source lines 177-190): count each deduplicated permission, then walk the
risk factors when `app.riskAnalysis?.riskFactors` is present. -/
def permStep (st : List (String × Nat) × RiskBuckets) (app : App) :
    Except String (List (String × Nat) × RiskBuckets) := do
  let counts := (jsDedup (app.permissions.getD [])).foldl bump st.1
  let buckets ←
    match app.riskAnalysis with
    | some ra =>
      match ra.riskFactors with
      | some fs => fs.foldlM addFactor st.2
      | none => pure st.2
    | none => pure st.2
  pure (counts, buckets)

/-- The result object of `analyzePermissions`; `permissionCount` and
`mostCommon` keep the pair representation of `Object.entries`. -/
structure PermissionAnalysis where
  permissionCount : List (String × Nat)
  mostCommon : List (String × Nat)
  highRiskPermissions : Nat
  mediumRiskPermissions : Nat
  lowRiskPermissions : Nat
deriving DecidableEq

/-- `PDFReportService.analyzePermissions` (source lines 170-202).
`mostCommon` sorts `Object.entries(permissionCount)` (insertion order) with
the stable comparator `(a, b) => b[1] - a[1]` and takes the first 10. -/
def analyzePermissions (apps : List App) : Except String PermissionAnalysis :=
  (apps.foldlM permStep ([], ⟨[], [], []⟩)).map fun st =>
    { permissionCount := st.1
      mostCommon := (sortDesc (fun e => (e.2 : Int)) st.1).take 10
      highRiskPermissions := st.2.high.length
      mediumRiskPermissions := st.2.med.length
      lowRiskPermissions := st.2.low.length }

/-- `app.dataUsage?.wifi || 0` as accumulated by `summarizeDataUsage` (the
`forEach` guards on `app.dataUsage`). -/
def wifiOf (app : App) : Nat :=
  match app.dataUsage with
  | some du => du.wifi.getD 0
  | none => 0

/-- `app.dataUsage?.mobile || 0`. -/
def mobileOf (app : App) : Nat :=
  match app.dataUsage with
  | some du => du.mobile.getD 0
  | none => 0

/-- `app.dataUsage && app.dataUsage.total > 0`. -/
def hasPositiveUsage (app : App) : Bool :=
  match app.dataUsage with
  | some du => decide (0 < du.total.getD 0)
  | none => false

/-- The compact descriptor built for each top data consumer
(source lines 210-216). -/
structure DataConsumer where
  name : String
  packageName : Option String
  total : Nat
  wifi : Nat
  mobile : Nat
deriving DecidableEq

/-- The `.map` body of the top-consumer pipeline. -/
def toConsumer (app : App) : DataConsumer :=
  { name := jsOr app.name (jsOr app.appName "Unknown")
    packageName := app.packageName
    total := (app.dataUsage.bind DataUsage.total).getD 0
    wifi := wifiOf app
    mobile := mobileOf app }

/-- The result of `summarizeDataUsage`; the three totals are already passed
through `formatBytes` in the source. -/
structure DataUsageSummary where
  totalWifi : String
  totalMobile : String
  totalCombined : String
  topDataConsumers : List DataConsumer
deriving DecidableEq

/-- `PDFReportService.summarizeDataUsage` (source lines 205-231). -/
def summarizeDataUsage (apps : List App) : DataUsageSummary :=
  let topDataConsumers :=
    (sortDesc (fun d => (d.total : Int)) ((apps.filter hasPositiveUsage).map toConsumer)).take 10
  let totalWifi := apps.foldl (fun acc a => acc + wifiOf a) 0
  let totalMobile := apps.foldl (fun acc a => acc + mobileOf a) 0
  { totalWifi := formatBytes totalWifi
    totalMobile := formatBytes totalMobile
    totalCombined := formatBytes (totalWifi + totalMobile)
    topDataConsumers }

/-- The opening-brace character, written via its code point. -/
def lbrace : Char := Char.ofNat 123

/-- The closing-brace character, written via its code point. -/
def rbrace : Char := Char.ofNat 125

/-- The double-quote character. -/
def dquote : Char := Char.ofNat 34

/-- The single-quote character. -/
def squote : Char := Char.ofNat 39

/-- Does the second character list start with the first? -/
def chListStarts : List Char → List Char → Bool
  | [], _ => true
  | _ :: _, [] => false
  | p :: ps, c :: cs => p == c && chListStarts ps cs

/-- Does the character list contain the pattern as a contiguous run? -/
def chListHas (pat : List Char) : List Char → Bool
  | [] => chListStarts pat []
  | c :: cs => chListStarts pat (c :: cs) || chListHas pat cs

/-- Substring test on strings, used to state where raw user input surfaces in
rendered markup. -/
def strContains (s pat : String) : Bool := chListHas pat.toList s.toList

/-- Scan a JSON string body (no escape sequences, a simplification noted in
`jsonValid`) up to the closing quote, returning the remainder. -/
def jsonTakeStr : List Char → Option (List Char)
  | [] => none
  | c :: cs => if c == dquote then some cs else jsonTakeStr cs

/-- Consume one or more decimal digits, returning the remainder. -/
def jsonDigits : List Char → Option (List Char)
  | [] => none
  | c :: cs =>
    if c.isDigit then
      some (match jsonDigits cs with
            | some r => r
            | none => cs)
    else none

/-- Consume the tail of a JSON number after the integer part: an optional
fraction and an optional exponent. -/
def jsonNumTail (s : List Char) : List Char :=
  let afterFrac :=
    match s with
    | '.' :: rest =>
      match jsonDigits rest with
      | some r => r
      | none => s
    | _ => s
  match afterFrac with
  | c :: rest =>
    if c == 'e' || c == 'E' then
      match rest with
      | '+' :: rest2 =>
        match jsonDigits rest2 with
        | some r => r
        | none => afterFrac
      | '-' :: rest2 =>
        match jsonDigits rest2 with
        | some r => r
        | none => afterFrac
      | rest2 =>
        match jsonDigits rest2 with
        | some r => r
        | none => afterFrac
    else afterFrac
  | [] => afterFrac

/-- Consume a complete JSON number (optional minus, digits, optional fraction
and exponent), returning the remainder. -/
def jsonTakeNum : List Char → Option (List Char)
  | [] => none
  | c :: cs =>
    if c == '-' then
      match jsonDigits cs with
      | some r => some (jsonNumTail r)
      | none => none
    else
      match jsonDigits (c :: cs) with
      | some r => some (jsonNumTail r)
      | none => none

/-- Phases of the pushdown recogniser for the JSON grammar. -/
inductive JPhase where
  | value
  | afterValue
  | arrFirst
  | objFirst
  | objKey
  | objColon
deriving DecidableEq

/-- Context-stack entries of the recogniser. -/
inductive JCtx where
  | arr
  | obj
deriving DecidableEq

/-- Fuel-driven pushdown recogniser for JSON texts (strings are scanned
without escape sequences — none appear in the inputs the claims use). Each
step consumes fuel, so with fuel at least twice the input length the
recogniser decides the grammar. -/
def jsonRun : Nat → List Char → JPhase → List JCtx → Bool
  | 0, _, _, _ => false
  | _ + 1, [], phase, stack => phase == JPhase.afterValue && stack.isEmpty
  | fuel + 1, c :: cs, phase, stack =>
    if c == ' ' || c == '\n' || c == '\t' || c == '\r' then
      jsonRun fuel cs phase stack
    else
      match phase with
      | JPhase.value =>
        if c == lbrace then jsonRun fuel cs JPhase.objFirst (JCtx.obj :: stack)
        else if c == '[' then jsonRun fuel cs JPhase.arrFirst (JCtx.arr :: stack)
        else if c == dquote then
          match jsonTakeStr cs with
          | some rest => jsonRun fuel rest JPhase.afterValue stack
          | none => false
        else if chListStarts "null".toList (c :: cs) then
          jsonRun fuel ((c :: cs).drop 4) JPhase.afterValue stack
        else if chListStarts "true".toList (c :: cs) then
          jsonRun fuel ((c :: cs).drop 4) JPhase.afterValue stack
        else if chListStarts "false".toList (c :: cs) then
          jsonRun fuel ((c :: cs).drop 5) JPhase.afterValue stack
        else
          match jsonTakeNum (c :: cs) with
          | some rest => jsonRun fuel rest JPhase.afterValue stack
          | none => false
      | JPhase.arrFirst =>
        if c == ']' then jsonRun fuel cs JPhase.afterValue (stack.drop 1)
        else jsonRun fuel (c :: cs) JPhase.value stack
      | JPhase.objFirst =>
        if c == rbrace then jsonRun fuel cs JPhase.afterValue (stack.drop 1)
        else if c == dquote then
          match jsonTakeStr cs with
          | some rest => jsonRun fuel rest JPhase.objColon stack
          | none => false
        else false
      | JPhase.objKey =>
        if c == dquote then
          match jsonTakeStr cs with
          | some rest => jsonRun fuel rest JPhase.objColon stack
          | none => false
        else false
      | JPhase.objColon =>
        if c == ':' then jsonRun fuel cs JPhase.value stack else false
      | JPhase.afterValue =>
        match stack with
        | [] => false
        | JCtx.arr :: rest =>
          if c == ',' then jsonRun fuel cs JPhase.value stack
          else if c == ']' then jsonRun fuel cs JPhase.afterValue rest
          else false
        | JCtx.obj :: rest =>
          if c == ',' then jsonRun fuel cs JPhase.objKey stack
          else if c == rbrace then jsonRun fuel cs JPhase.afterValue rest
          else false

/-- Model of the acceptance behaviour of the ECMAScript built-in
`JSON.parse` (an external collaborator of the service, like `Math`): `true`
exactly when the text belongs to the JSON grammar (string escape sequences
excepted, see `jsonRun`). -/
def jsonValid (s : String) : Bool :=
  jsonRun (2 * s.length + 2) s.toList JPhase.value []

/-- Model of `JSON.parse` as used by `prepareReportData`: the parsed blob is
opaque to the engine (stored and forwarded, never interpreted), so a
successful parse is represented by the source text itself; an invalid text
throws. -/
def jsonParseModel (s : String) : Except String String :=
  if jsonValid s then .ok s else .error "Unexpected token in JSON"

/-- Lines 83-84 of the source: `settingsData ? JSON.parse(settingsData) : {}`
— the ternary tests JS truthiness, so an absent blob *or a present
empty-string blob* (the empty string is falsy) becomes the empty object
without ever reaching `JSON.parse`; any other present blob goes through
`JSON.parse` with no surrounding try/catch. -/
def blobOrEmpty (blob : Option String) : Except String String :=
  match blob with
  | some s => if s = "" then .ok "\x7b\x7d" else jsonParseModel s
  | none => .ok "\x7b\x7d"

/-- The report model assembled by `prepareReportData` (source lines 90-105).
The wall-clock `generatedDate` and the `deviceInfo` platform descriptor are
host-environment inputs outside the computational core and are not modelled;
`settings` and `scanResults` are the opaque parsed blobs. -/
structure ReportData where
  appVersion : String
  settings : String
  stats : Statistics
  riskCategories : RiskCategories
  topRiskyApps : List App
  permissionAnalysis : PermissionAnalysis
  dataUsageSummary : DataUsageSummary
  apps : List App
  scanResults : String
deriving DecidableEq

/-- `PDFReportService.prepareReportData` (source lines 80-106): retrieve and
parse the two persisted blobs, then run the five aggregation passes. A throw
from `JSON.parse` (line 83-84) or from `analyzePermissions` (line 88)
propagates; nothing here catches it. -/
def prepareReportData (settingsData scanData : Option String) (apps : List App) :
    Except String ReportData := do
  let settings ← blobOrEmpty settingsData
  let scanResults ← blobOrEmpty scanData
  let permissionAnalysis ← analyzePermissions apps
  pure
    { appVersion := "1.0.0"
      settings
      stats := calculateStatistics apps
      riskCategories := categorizeByRisk apps
      topRiskyApps := getTopRiskyApps apps 10
      permissionAnalysis
      dataUsageSummary := summarizeDataUsage apps
      apps
      scanResults }

/-- The error envelope of `generateReport` (source lines 40-78): any error
thrown while preparing the report is caught and re-raised as
`PDF generation failed: <message>` — it still reaches the caller. The PDF
writing and file-system steps are host-boundary effects outside the model. -/
def generateReportModel (settingsData scanData : Option String) (apps : List App) :
    Except String ReportData :=
  match prepareReportData settingsData scanData apps with
  | .ok r => .ok r
  | .error e => .error ("PDF generation failed: " ++ e)

/-- `PDFReportService.escapeHtml` (source lines 1111-1123), per character. -/
def escapeChar (c : Char) : String :=
  if c == '&' then "&amp;"
  else if c == '<' then "&lt;"
  else if c == '>' then "&gt;"
  else if c == dquote then "&quot;"
  else if c == squote then "&#039;"
  else String.singleton c

/-- `PDFReportService.escapeHtml` on a string that is present (the falsy
guard returns the empty string unchanged either way). -/
def escapeHtml (s : String) : String := String.join (s.toList.map escapeChar)

/-- `PDFReportService.escapeHtml` applied to a possibly-undefined field:
`!text` short-circuits `undefined` to the empty string. -/
def escapeHtmlJS : Option String → String
  | none => ""
  | some s => escapeHtml s

/-- Replace the first occurrence of `pat` in the character list — the
behaviour of JS `String.prototype.replace` with a string pattern. -/
def replaceOnceAux (pat rep : List Char) : List Char → List Char
  | [] => []
  | c :: cs =>
    if chListStarts pat (c :: cs) then rep ++ (c :: cs).drop pat.length
    else c :: replaceOnceAux pat rep cs

/-- JS `s.replace(pat, rep)` for plain string patterns (first occurrence
only). -/
def jsReplaceOnce (s pat rep : String) : String :=
  String.mk (replaceOnceAux pat.toList rep.toList s.toList)

/-- `PDFReportService.getRiskClass` (source lines 1036-1047). -/
def getRiskClass (riskLevel : Option String) : String :=
  if riskLevel == some "HIGH_RISK" then "risk-high"
  else if riskLevel == some "MEDIUM_RISK" then "risk-medium"
  else if riskLevel == some "LOW_RISK" then "risk-low"
  else "risk-none"

/-- `app.riskAnalysis?.riskLevel?.replace('_RISK', '').replace('_', ' ') ||
'SAFE'` as rendered in the inventory table (source line 839). -/
def riskBadgeText (riskLevel : Option String) : String :=
  match riskLevel with
  | none => "SAFE"
  | some s =>
    let t := jsReplaceOnce (jsReplaceOnce s "_RISK" "") "_" " "
    if t = "" then "SAFE" else t

/-- `.map` with the element index, starting at the given offset. -/
def mapIdxAux {α β : Type} (f : Nat → α → β) : Nat → List α → List β
  | _, [] => []
  | i, a :: rest => f i a :: mapIdxAux f (i + 1) rest

/-- One entry of the "High Priority Apps" section (source lines 719-754).
The app name (line 723) and package name (line 724) are interpolated with no
`escapeHtml` call — this is the dynamic content of the template verbatim,
with the layout whitespace between tags elided. -/
def topPriorityAppEntry (index : Nat) (app : App) : String :=
  "<div class=\"app-detail\"><div class=\"app-header\"><div><div class=\"app-name\">"
    ++ toString (index + 1) ++ ". " ++ jsOr app.name (jsOr app.appName "Unknown App")
    ++ "</div><div class=\"app-package\">" ++ jsShow app.packageName
    ++ "</div></div><span class=\"risk-badge "
    ++ getRiskClass (app.riskAnalysis.bind RiskAnalysis.riskLevel) ++ "\">"
    ++ jsOr (app.riskAnalysis.bind RiskAnalysis.riskLevel) "UNKNOWN"
    ++ "</span></div><div class=\"info-grid\"><div class=\"info-item\">"
    ++ "<div class=\"info-label\">Risk Score</div><div class=\"info-value\">"
    ++ toString ((app.riskAnalysis.bind RiskAnalysis.riskScore).getD 0)
    ++ "</div></div><div class=\"info-item\">"
    ++ "<div class=\"info-label\">Permissions</div><div class=\"info-value\">"
    ++ toString (jsDedup (app.permissions.getD [])).length
    ++ "</div></div><div class=\"info-item\">"
    ++ "<div class=\"info-label\">High Risk Permissions</div><div class=\"info-value\">"
    ++ toString ((app.riskAnalysis.bind RiskAnalysis.highRiskCount).getD 0)
    ++ "</div></div><div class=\"info-item\">"
    ++ "<div class=\"info-label\">Data Usage</div><div class=\"info-value\">"
    ++ formatBytes (totalOf app)
    ++ "</div></div></div><p>See detailed permission analysis in individual app pages below.</p></div>"

/-- The "High Priority Apps" page (source lines 713-757): rendered only when
`topRiskyApps` is non-empty, over the first 5 entries. -/
def topPriorityAppsSection (topRiskyApps : List App) : String :=
  if topRiskyApps.length = 0 then ""
  else
    "<div class=\"page\"><div class=\"section\"><div class=\"section-title\">High Priority Apps</div>"
      ++ "<p>These apps have the highest security risk scores and should be reviewed carefully.</p>"
      ++ String.join (mapIdxAux topPriorityAppEntry 0 (topRiskyApps.take 5))
      ++ "</div></div>"

/-- One row of the "Top Data Consumers" table (source lines 795-805). The
consumer name (line 798) and package name (line 799) are interpolated with no
`escapeHtml` call. -/
def dataConsumerRow (d : DataConsumer) : String :=
  "<tr><td><strong>" ++ d.name
    ++ "</strong><br><small style=\"color: #666; font-family: monospace;\">"
    ++ jsShow d.packageName
    ++ "</small></td><td><strong>" ++ formatBytes d.total
    ++ "</strong></td><td>" ++ formatBytes d.wifi
    ++ "</td><td>" ++ formatBytes d.mobile ++ "</td></tr>"

/-- The body of the "Top Data Consumers" table. -/
def dataConsumerRows (consumers : List DataConsumer) : String :=
  String.join (consumers.map dataConsumerRow)

/-- One row of the "Complete App Inventory" table (source lines 829-844);
here the name and package name do go through `escapeHtml`. -/
def inventoryRow (index : Nat) (app : App) : String :=
  "<tr><td>" ++ toString (index + 1)
    ++ "</td><td><strong>" ++ escapeHtml (jsOr app.name (jsOr app.appName "Unknown"))
    ++ "</strong><br><small style=\"color: #666; font-size: 8pt;\">"
    ++ escapeHtmlJS app.packageName
    ++ "</small></td><td>" ++ jsOr app.category "Other"
    ++ "</td><td><span class=\"risk-badge "
    ++ getRiskClass (app.riskAnalysis.bind RiskAnalysis.riskLevel) ++ "\">"
    ++ riskBadgeText (app.riskAnalysis.bind RiskAnalysis.riskLevel)
    ++ "</span></td><td><strong>"
    ++ toString (jsDedup (app.permissions.getD [])).length
    ++ "</strong></td></tr>"

/-- The inventory rows: `apps.slice(0, 30).map((app, index) => ...)`
(source line 829). -/
def inventoryRows (apps : List App) : List String :=
  mapIdxAux inventoryRow 0 (apps.take 30)

/-- The conditional trailer row `apps.length > 30 ? ... : ''` (source lines
845-851) with its dynamic count `apps.length - 30`. -/
def inventoryTrailer (apps : List App) : Option String :=
  if apps.length > 30 then
    some ("<tr><td colspan=\"5\" style=\"text-align: center; font-style: italic; color: #666;\">... and "
      ++ toString (apps.length - 30) ++ " more apps</td></tr>")
  else none

/-- The pure form of `addFactor` on factors whose level is one of the three
known keys (on other factors it leaves the buckets unchanged; `addFactor`
throws there instead). -/
def addFactorPure (b : RiskBuckets) (f : RiskFactor) : RiskBuckets :=
  if f.level == some "HIGH" then { b with high := addUnique b.high f.permission }
  else if f.level == some "MEDIUM" then { b with med := addUnique b.med f.permission }
  else if f.level == some "LOW" then { b with low := addUnique b.low f.permission }
  else b

/-- The pure form of `permStep`. -/
def permStepPure (st : List (String × Nat) × RiskBuckets) (app : App) :
    List (String × Nat) × RiskBuckets :=
  ((jsDedup (app.permissions.getD [])).foldl bump st.1,
    match app.riskAnalysis with
    | some ra =>
      match ra.riskFactors with
      | some fs => fs.foldl addFactorPure st.2
      | none => st.2
    | none => st.2)

/-- The result `analyzePermissions` produces when no risk factor has an
unknown level. -/
def analyzePure (apps : List App) : PermissionAnalysis :=
  let st := apps.foldl permStepPure ([], ⟨[], [], []⟩)
  { permissionCount := st.1
    mostCommon := (sortDesc (fun e => (e.2 : Int)) st.1).take 10
    highRiskPermissions := st.2.high.length
    mediumRiskPermissions := st.2.med.length
    lowRiskPermissions := st.2.low.length }

/-- Every entry of `app.riskAnalysis.riskFactors` (when present) carries one
of the three levels the `permissionByRisk` table knows. -/
def validFactors (app : App) : Bool :=
  match app.riskAnalysis with
  | none => true
  | some ra =>
    match ra.riskFactors with
    | none => true
    | some fs =>
      fs.all fun f =>
        f.level == some "HIGH" || f.level == some "MEDIUM" || f.level == some "LOW"

/-- Is an `Except` computation a success? -/
def isOkE {ε α : Type} : Except ε α → Bool
  | .ok _ => true
  | .error _ => false

/-- An app either has no `riskAnalysis` or its `riskLevel` is one of the
four values the categoriser and the statistics pass both recognise. -/
def validLevel (app : App) : Bool :=
  match app.riskAnalysis with
  | none => true
  | some ra =>
    ra.riskLevel == some "HIGH_RISK" || ra.riskLevel == some "MEDIUM_RISK" ||
      ra.riskLevel == some "LOW_RISK" || ra.riskLevel == some "NO_RISK"

section SortLemmas

variable {α : Type} (f : α → Int)

theorem insertDesc_perm (x : α) (l : List α) : (insertDesc f x l).Perm (x :: l) := by
  induction l with
  | nil => exact List.Perm.refl _
  | cons y ys ih =>
    unfold insertDesc
    split
    · exact ((ih).cons y).trans (List.Perm.swap x y ys)
    · exact List.Perm.refl _

theorem sortDesc_perm (l : List α) : (sortDesc f l).Perm l := by
  induction l with
  | nil => exact List.Perm.refl _
  | cons x xs ih =>
    unfold sortDesc
    exact (insertDesc_perm f x (sortDesc f xs)).trans (ih.cons x)

theorem mem_insertDesc {x y : α} {l : List α} :
    y ∈ insertDesc f x l ↔ y = x ∨ y ∈ l := by
  rw [(insertDesc_perm f x l).mem_iff, List.mem_cons]

theorem insertDesc_pairwise {x : α} {l : List α}
    (h : l.Pairwise fun a b => f b ≤ f a) :
    (insertDesc f x l).Pairwise fun a b => f b ≤ f a := by
  induction l with
  | nil => simp [insertDesc]
  | cons y ys ih =>
    rw [List.pairwise_cons] at h
    unfold insertDesc
    split
    · rename_i hlt
      refine List.pairwise_cons.2 ⟨?_, ih h.2⟩
      intro z hz
      rcases (mem_insertDesc f).1 hz with hz | hz
      · exact hz ▸ le_of_lt hlt
      · exact h.1 z hz
    · rename_i hge
      push_neg at hge
      refine List.pairwise_cons.2 ⟨?_, List.pairwise_cons.2 ⟨h.1, h.2⟩⟩
      intro z hz
      rcases List.mem_cons.1 hz with hz | hz
      · exact hz ▸ hge
      · exact (h.1 z hz).trans hge

theorem sortDesc_pairwise (l : List α) :
    (sortDesc f l).Pairwise fun a b => f b ≤ f a := by
  induction l with
  | nil => simp [sortDesc]
  | cons x xs ih => exact insertDesc_pairwise f (l := sortDesc f xs) ih

theorem insertDesc_filter (x : α) (l : List α) (v : Int) :
    (insertDesc f x l).filter (fun a => f a == v) =
      if f x = v then x :: l.filter (fun a => f a == v)
      else l.filter (fun a => f a == v) := by
  induction l with
  | nil =>
    by_cases hx : f x = v <;> simp [insertDesc, List.filter_cons, hx]
  | cons y ys ih =>
    unfold insertDesc
    split
    · rename_i hlt
      by_cases hx : f x = v
      · have hy : ¬ f y = v := by omega
        simp [List.filter_cons, ih, hx, hy]
      · simp [List.filter_cons, ih, hx]
    · by_cases hx : f x = v <;> simp [List.filter_cons, hx]

theorem sortDesc_filter (l : List α) (v : Int) :
    (sortDesc f l).filter (fun a => f a == v) = l.filter (fun a => f a == v) := by
  induction l with
  | nil => rfl
  | cons x xs ih =>
    unfold sortDesc
    rw [insertDesc_filter]
    by_cases hx : f x = v <;> simp [List.filter_cons, hx, ih]

end SortLemmas

section DedupLemmas

variable {α : Type} [DecidableEq α]

theorem jsDedupAux_cons (seen : List α) (x : α) (xs : List α) :
    jsDedupAux seen (x :: xs) =
      if x ∈ seen then jsDedupAux seen xs else x :: jsDedupAux (x :: seen) xs := rfl

theorem mem_jsDedupAux {a : α} {seen l : List α} :
    a ∈ jsDedupAux seen l ↔ a ∈ l ∧ a ∉ seen := by
  induction l generalizing seen with
  | nil => simp [jsDedupAux]
  | cons x xs ih =>
    rw [jsDedupAux_cons]
    by_cases hx : x ∈ seen
    · rw [if_pos hx, ih]
      by_cases hax : a = x
      · subst hax
        simp [hx]
      · simp [hax]
    · rw [if_neg hx, List.mem_cons, ih]
      by_cases hax : a = x
      · subst hax
        simp [hx]
      · simp [hax]

theorem mem_jsDedup {a : α} {l : List α} : a ∈ jsDedup l ↔ a ∈ l := by
  simp [jsDedup, mem_jsDedupAux]

theorem count_jsDedupAux (a : α) (seen l : List α) :
    (jsDedupAux seen l).count a = if a ∈ l ∧ a ∉ seen then 1 else 0 := by
  induction l generalizing seen with
  | nil => simp [jsDedupAux]
  | cons x xs ih =>
    rw [jsDedupAux_cons]
    by_cases hx : x ∈ seen
    · rw [if_pos hx, ih]
      by_cases hax : a = x
      · subst hax
        simp [hx]
      · simp [hax]
    · rw [if_neg hx]
      by_cases hax : a = x
      · subst hax
        rw [List.count_cons_self, ih]
        simp [hx]
      · rw [List.count_cons_of_ne hax, ih]
        simp [List.mem_cons, hax]

theorem count_jsDedup (a : α) (l : List α) :
    (jsDedup l).count a = if a ∈ l then 1 else 0 := by
  simp [jsDedup, count_jsDedupAux]

theorem jsDedupAux_congr {s₁ s₂ : List α} (l : List α)
    (h : ∀ y, y ∈ s₁ ↔ y ∈ s₂) : jsDedupAux s₁ l = jsDedupAux s₂ l := by
  induction l generalizing s₁ s₂ with
  | nil => rfl
  | cons x xs ih =>
    rw [jsDedupAux_cons, jsDedupAux_cons]
    by_cases hx : x ∈ s₁
    · rw [if_pos hx, if_pos ((h x).1 hx)]
      exact ih h
    · rw [if_neg hx, if_neg (fun hc => hx ((h x).2 hc))]
      refine congrArg (x :: ·) (ih ?_)
      intro y
      simp only [List.mem_cons]
      exact or_congr Iff.rfl (h y)

theorem jsDedupAux_append (s l₁ l₂ : List α) :
    jsDedupAux s (l₁ ++ l₂) = jsDedupAux s l₁ ++ jsDedupAux (l₁ ++ s) l₂ := by
  induction l₁ generalizing s with
  | nil => simp [jsDedupAux]
  | cons x xs ih =>
    rw [List.cons_append, jsDedupAux_cons, jsDedupAux_cons]
    by_cases hx : x ∈ s
    · rw [if_pos hx, if_pos hx, ih]
      have he : jsDedupAux (xs ++ s) l₂ = jsDedupAux (x :: xs ++ s) l₂ := by
        refine jsDedupAux_congr l₂ ?_
        intro y
        simp only [List.mem_append, List.cons_append, List.mem_cons]
        constructor
        · tauto
        · rintro (rfl | h)
          · exact Or.inr hx
          · tauto
      rw [he]
    · rw [if_neg hx, if_neg hx, ih, List.cons_append]
      have he : jsDedupAux (xs ++ x :: s) l₂ = jsDedupAux (x :: xs ++ s) l₂ := by
        refine jsDedupAux_congr l₂ ?_
        intro y
        simp only [List.mem_append, List.cons_append, List.mem_cons]
        tauto
      rw [he]

theorem jsDedupAux_idem {s t : List α} (l : List α) (hts : ∀ y, y ∈ t → y ∈ s) :
    jsDedupAux s (jsDedupAux t l) = jsDedupAux s l := by
  induction l generalizing s t with
  | nil => rfl
  | cons x xs ih =>
    rw [jsDedupAux_cons t x xs]
    by_cases hxt : x ∈ t
    · rw [if_pos hxt, jsDedupAux_cons s x xs, if_pos (hts x hxt)]
      exact ih hts
    · rw [if_neg hxt, jsDedupAux_cons s x (jsDedupAux (x :: t) xs),
        jsDedupAux_cons s x xs]
      by_cases hxs : x ∈ s
      · rw [if_pos hxs, if_pos hxs]
        refine ih ?_
        intro y hy
        rcases List.mem_cons.1 hy with rfl | hy
        · exact hxs
        · exact hts y hy
      · rw [if_neg hxs, if_neg hxs]
        refine congrArg (x :: ·) (ih ?_)
        intro y hy
        rcases List.mem_cons.1 hy with rfl | hy
        · exact List.mem_cons_self y s
        · exact List.mem_cons_of_mem x (hts y hy)

end DedupLemmas

section BumpLemmas

theorem lookupD_bump (c : List (String × Nat)) (q p : String) :
    lookupD (bump c q) p = lookupD c p + if q = p then 1 else 0 := by
  induction c with
  | nil =>
    by_cases h : q = p
    · subst h
      simp [bump, lookupD]
    · simp [bump, lookupD, h]
  | cons e rest ih =>
    obtain ⟨k, n⟩ := e
    by_cases hkq : k = q
    · subst hkq
      by_cases hkp : k = p
      · subst hkp
        simp [bump, lookupD]
      · have hqp : ¬ k = p := hkp
        simp [bump, lookupD, hqp]
    · by_cases hkp : k = p
      · have hpq : ¬ p = q := fun h => hkq (hkp.trans h)
        have hqp : ¬ q = p := fun h => hpq h.symm
        simp [bump, lookupD, hkq, hkp, hpq, hqp]
      · simp [bump, lookupD, hkq, hkp, ih]

theorem keys_bump (c : List (String × Nat)) (q : String) :
    (bump c q).map Prod.fst =
      if q ∈ c.map Prod.fst then c.map Prod.fst else c.map Prod.fst ++ [q] := by
  induction c with
  | nil => simp [bump]
  | cons e rest ih =>
    obtain ⟨k, n⟩ := e
    by_cases hkq : k = q
    · subst hkq
      simp [bump]
    · have hqk : ¬ q = k := fun h => hkq h.symm
      by_cases hq : q ∈ rest.map Prod.fst
      · simp [bump, hkq, hqk, ih, hq]
      · simp [bump, hkq, hqk, ih, hq]

theorem lookupD_foldl_bump (l : List String) (c : List (String × Nat)) (p : String) :
    lookupD (l.foldl bump c) p = lookupD c p + l.count p := by
  induction l generalizing c with
  | nil => simp
  | cons x xs ih =>
    rw [List.foldl_cons, ih, lookupD_bump]
    by_cases hxp : x = p
    · subst hxp
      rw [List.count_cons_self]
      simp
      omega
    · rw [List.count_cons_of_ne (fun h => hxp h.symm)]
      simp [hxp]

theorem keys_foldl_bump (l : List String) (c : List (String × Nat)) :
    (l.foldl bump c).map Prod.fst =
      c.map Prod.fst ++ jsDedupAux (c.map Prod.fst) l := by
  induction l generalizing c with
  | nil => simp [jsDedupAux]
  | cons x xs ih =>
    rw [List.foldl_cons, ih, keys_bump, jsDedupAux_cons]
    by_cases hx : x ∈ c.map Prod.fst
    · rw [if_pos hx, if_pos hx]
    · rw [if_neg hx, if_neg hx]
      have he : jsDedupAux (c.map Prod.fst ++ [x]) xs =
          jsDedupAux (x :: c.map Prod.fst) xs := by
        refine jsDedupAux_congr xs ?_
        intro y
        simp only [List.mem_append, List.mem_cons, List.mem_singleton]
        tauto
      rw [he]
      simp

end BumpLemmas

section ExceptLemmas

theorem foldlM_ok {α β : Type} (step : β → α → Except String β) (g : β → α → β) :
    ∀ (l : List α) (st : β),
      (∀ st' a, a ∈ l → step st' a = .ok (g st' a)) →
      l.foldlM step st = .ok (l.foldl g st) := by
  intro l
  induction l with
  | nil =>
    intro st h
    rfl
  | cons a rest ih =>
    intro st h
    rw [List.foldlM_cons, h st a (List.mem_cons_self a rest)]
    show rest.foldlM step (g st a) = _
    rw [List.foldl_cons]
    exact ih (g st a) (fun st' b hb => h st' b (List.mem_cons_of_mem a hb))

theorem addFactor_ok (b : RiskBuckets) (f : RiskFactor)
    (h : (f.level == some "HIGH" || f.level == some "MEDIUM" ||
      f.level == some "LOW") = true) :
    addFactor b f = .ok (addFactorPure b f) := by
  unfold addFactor addFactorPure
  simp only [Bool.or_eq_true, beq_iff_eq] at h
  rcases h with (hl | hl) | hl <;> simp [hl]

theorem permStep_ok (st : List (String × Nat) × RiskBuckets) (app : App)
    (h : validFactors app = true) :
    permStep st app = .ok (permStepPure st app) := by
  rcases happ : app.riskAnalysis with _ | ra
  · simp only [permStep, permStepPure, happ]
    rfl
  · rcases hfs : ra.riskFactors with _ | fs
    · simp only [permStep, permStepPure, happ, hfs]
      rfl
    · have hall : ∀ f ∈ fs, (f.level == some "HIGH" || f.level == some "MEDIUM" ||
          f.level == some "LOW") = true := by
        simp only [validFactors, happ, hfs, List.all_eq_true] at h
        intro f hf
        simpa using h f hf
      have hfold : fs.foldlM addFactor st.2 = .ok (fs.foldl addFactorPure st.2) :=
        foldlM_ok addFactor addFactorPure fs st.2
          (fun b f hf => addFactor_ok b f (hall f hf))
      simp only [permStep, permStepPure, happ, hfs, hfold]
      rfl

theorem analyzePermissions_ok (apps : List App)
    (h : ∀ app ∈ apps, validFactors app = true) :
    analyzePermissions apps = .ok (analyzePure apps) := by
  unfold analyzePermissions analyzePure
  rw [foldlM_ok permStep permStepPure apps ([], ⟨[], [], []⟩)
    (fun st a ha => permStep_ok st a (h a ha))]
  rfl

end ExceptLemmas

section CountLemmas

/-- The permission-count pass of `analyzePermissions`, viewed on its own:
the contribution of one app to the count table. -/
def countsStep (c : List (String × Nat)) (a : App) : List (String × Nat) :=
  (jsDedup (a.permissions.getD [])).foldl bump c

theorem counts_foldl (apps : List App) (st : List (String × Nat) × RiskBuckets) :
    (apps.foldl permStepPure st).1 = apps.foldl countsStep st.1 := by
  induction apps generalizing st with
  | nil => rfl
  | cons a rest ih =>
    rw [List.foldl_cons, List.foldl_cons, ih]
    rfl

theorem lookupD_counts (apps : List App) (c : List (String × Nat)) (p : String) :
    lookupD (apps.foldl countsStep c) p =
      lookupD c p +
        (apps.filter (fun a => decide (p ∈ jsDedup (a.permissions.getD [])))).length := by
  induction apps generalizing c with
  | nil => simp
  | cons a rest ih =>
    rw [List.foldl_cons, ih]
    unfold countsStep
    rw [lookupD_foldl_bump, count_jsDedup]
    by_cases hp : p ∈ a.permissions.getD []
    · have hp2 : p ∈ jsDedup (a.permissions.getD []) := mem_jsDedup.2 hp
      simp [List.filter_cons, hp, hp2]
      omega
    · have hp2 : p ∉ jsDedup (a.permissions.getD []) := fun hc => hp (mem_jsDedup.1 hc)
      simp [List.filter_cons, hp, hp2]

theorem keys_counts (apps : List App) (c : List (String × Nat)) :
    (apps.foldl countsStep c).map Prod.fst =
      c.map Prod.fst ++
        jsDedupAux (c.map Prod.fst) (apps.flatMap (fun a => a.permissions.getD [])) := by
  induction apps generalizing c with
  | nil => simp [jsDedupAux]
  | cons a rest ih =>
    rw [List.flatMap_cons, jsDedupAux_append, List.foldl_cons, ih]
    unfold countsStep
    rw [keys_foldl_bump]
    rw [show jsDedup (a.permissions.getD []) = jsDedupAux [] (a.permissions.getD []) from rfl]
    rw [jsDedupAux_idem _ (fun y hy => absurd hy (List.not_mem_nil y))]
    rw [List.append_assoc]
    refine congrArg _ (congrArg _ (jsDedupAux_congr _ ?_))
    intro y
    simp only [List.mem_append, mem_jsDedupAux]
    tauto

end CountLemmas

section StatLemmas

theorem foldl_add_map {α : Type} (g : α → Nat) (l : List α) (n : Nat) :
    l.foldl (fun acc a => acc + g a) n = n + (l.map g).sum := by
  induction l generalizing n with
  | nil => simp
  | cons a rest ih =>
    rw [List.foldl_cons, ih, List.map_cons, List.sum_cons]
    omega

end StatLemmas

section MapIdxLemmas

theorem mapIdxAux_length {α β : Type} (f : Nat → α → β) (i : Nat) (l : List α) :
    (mapIdxAux f i l).length = l.length := by
  induction l generalizing i with
  | nil => rfl
  | cons a rest ih => simp [mapIdxAux, ih]

theorem mapIdxAux_getElem {α β : Type} (f : Nat → α → β) (j i : Nat) (l : List α) :
    (mapIdxAux f j l)[i]? = l[i]?.map (f (j + i)) := by
  induction l generalizing j i with
  | nil => simp [mapIdxAux]
  | cons a rest ih =>
    cases i with
    | zero => simp [mapIdxAux]
    | succ i =>
      simp only [mapIdxAux, List.getElem?_cons_succ]
      rw [ih (j + 1) i]
      have he : j + 1 + i = j + (i + 1) := by omega
      rw [he]

end MapIdxLemmas

section LogLemmas

end LogLemmas

/-- Number of the four tier predicates of `categorizeByRisk` an app
satisfies. -/
def tierCount (a : App) : Nat :=
  (if isHighRiskApp a then 1 else 0) + (if isMediumRiskApp a then 1 else 0) +
    (if isLowRiskApp a then 1 else 0) + (if isNoRiskApp a then 1 else 0)

theorem tierCount_le_one (a : App) : tierCount a ≤ 1 := by
  unfold tierCount isHighRiskApp isMediumRiskApp isLowRiskApp isNoRiskApp
  rcases ha : a.riskAnalysis with _ | ra
  · simp
  · rcases hl : ra.riskLevel with _ | s
    · simp [hl]
    · by_cases h1 : s = "HIGH_RISK" <;> by_cases h2 : s = "MEDIUM_RISK" <;>
        by_cases h3 : s = "LOW_RISK" <;> by_cases h4 : s = "NO_RISK" <;>
        simp_all

theorem tierCount_eq_one (a : App) (h : validLevel a = true) : tierCount a = 1 := by
  unfold tierCount isHighRiskApp isMediumRiskApp isLowRiskApp isNoRiskApp
  unfold validLevel at h
  rcases ha : a.riskAnalysis with _ | ra
  · simp
  · rw [ha] at h
    have h2 : (ra.riskLevel == some "HIGH_RISK" || ra.riskLevel == some "MEDIUM_RISK" ||
        ra.riskLevel == some "LOW_RISK" || ra.riskLevel == some "NO_RISK") = true := h
    simp only [Option.some_bind, Option.isNone_some, Bool.false_or]
    simp only [Bool.or_eq_true, beq_iff_eq] at h2
    rcases h2 with ((h2 | h2) | h2) | h2 <;> simp [h2]

theorem filters_sum (apps : List App) (h : ∀ a ∈ apps, tierCount a = 1) :
    (apps.filter isHighRiskApp).length + (apps.filter isMediumRiskApp).length +
      (apps.filter isLowRiskApp).length + (apps.filter isNoRiskApp).length =
      apps.length := by
  induction apps with
  | nil => rfl
  | cons a rest ih =>
    have ha := h a (List.mem_cons_self a rest)
    have hrest := ih (fun b hb => h b (List.mem_cons_of_mem a hb))
    unfold tierCount at ha
    simp only [List.filter_cons, List.length_cons]
    split_ifs at ha ⊢ <;> (try simp only [List.length_cons]) <;> omega

/-- C1. The four risk-tier groups of the Risk Categorizer: always pairwise
disjoint sublists of the input (order preserved); and whenever every present
`riskAnalysis` carries one of the four recognised `riskLevel` values, every
app lands in exactly one group and the four group sizes sum to the Statistics
Aggregator's `totalApps`. (The original claim also put apps with an
unrecognised or missing `riskLevel` into `noRisk`; in the code such an app
lands in no group at all.) -/
theorem categorizeByRisk_partition :
    (∀ a : App, tierCount a ≤ 1)
    ∧ (∀ apps : List App,
        (categorizeByRisk apps).highRisk = apps.filter isHighRiskApp
        ∧ (categorizeByRisk apps).mediumRisk = apps.filter isMediumRiskApp
        ∧ (categorizeByRisk apps).lowRisk = apps.filter isLowRiskApp
        ∧ (categorizeByRisk apps).noRisk = apps.filter isNoRiskApp
        ∧ (categorizeByRisk apps).highRisk.Sublist apps
        ∧ (categorizeByRisk apps).mediumRisk.Sublist apps
        ∧ (categorizeByRisk apps).lowRisk.Sublist apps
        ∧ (categorizeByRisk apps).noRisk.Sublist apps)
    ∧ (∀ a : App, validLevel a = true → tierCount a = 1)
    ∧ (∀ apps : List App, (∀ a ∈ apps, validLevel a = true) →
        (categorizeByRisk apps).highRisk.length +
          (categorizeByRisk apps).mediumRisk.length +
          (categorizeByRisk apps).lowRisk.length +
          (categorizeByRisk apps).noRisk.length =
          (calculateStatistics apps).totalApps) := by
  refine ⟨tierCount_le_one, ?_, tierCount_eq_one, ?_⟩
  · intro apps
    exact ⟨rfl, rfl, rfl, rfl, List.filter_sublist apps, List.filter_sublist apps,
      List.filter_sublist apps, List.filter_sublist apps⟩
  · intro apps h
    exact filters_sum apps (fun a ha => tierCount_eq_one a (h a ha))

/-- An app whose `riskAnalysis` is present but carries an unrecognised
`riskLevel`. -/
def weirdApp : App :=
  { name := some "W", appName := none, packageName := some "com.w", category := none,
    permissions := none, riskAnalysis := some ⟨some "WEIRD", none, none, none⟩,
    dataUsage := none }

/-- C1, counterexample to the claim as stated: an app with an unrecognised
`riskLevel` appears in none of the four groups of `categorizeByRisk` (so the
group sizes sum to 0), while `calculateStatistics` counts it — as `noRisk` —
into `totalApps = 1`. -/
theorem categorizeByRisk_unrecognised_level_lost :
    categorizeByRisk [weirdApp] = ⟨[], [], [], []⟩
    ∧ (calculateStatistics [weirdApp]).totalApps = 1
    ∧ (calculateStatistics [weirdApp]).noRisk = 1 := by
  decide


/-- The three apps of the end-to-end scenario of the specification: A
(HIGH_RISK, score 90, permissions CAMERA, CAMERA, LOCATION), B (MEDIUM_RISK,
score 40, permission STORAGE), C (no risk analysis, no permissions). -/
def scenarioApps : List App :=
  [{ name := some "A", appName := none, packageName := some "com.a", category := none,
     permissions := some ["CAMERA", "CAMERA", "LOCATION"],
     riskAnalysis := some ⟨some "HIGH_RISK", some 90, some 1, none⟩, dataUsage := none },
   { name := some "B", appName := none, packageName := some "com.b", category := none,
     permissions := some ["STORAGE"],
     riskAnalysis := some ⟨some "MEDIUM_RISK", some 40, some 0, none⟩, dataUsage := none },
   { name := some "C", appName := none, packageName := some "com.c", category := none,
     permissions := none, riskAnalysis := none, dataUsage := none }]

/-- An app whose risk factors include a level outside HIGH/MEDIUM/LOW. -/
def badFactorApp : App :=
  { name := some "Bad", appName := none, packageName := none, category := none,
    permissions := some ["CAMERA"],
    riskAnalysis :=
      some ⟨some "HIGH_RISK", some 90, some 1, some [⟨"CAMERA", some "WEIRD"⟩]⟩,
    dataUsage := none }

/-- C4. The Permission Analyzer succeeds on every input whose risk factors
all carry a level in HIGH/MEDIUM/LOW, and throws a `TypeError` (the
`permissionByRisk[riskLevel]` lookup yields no array) on an input containing
a factor with an unknown level, so the whole report request fails rather
than defaulting that factor. -/
theorem analyzePermissions_totality :
    (∀ apps : List App, (∀ a ∈ apps, validFactors a = true) →
      isOkE (analyzePermissions apps) = true)
    ∧ analyzePermissions [badFactorApp] =
        .error "TypeError: cannot read property includes of undefined"
    ∧ prepareReportData none none [badFactorApp] =
        .error "TypeError: cannot read property includes of undefined" := by
  refine ⟨?_, rfl, rfl⟩
  intro apps h
  rw [analyzePermissions_ok apps h]
  rfl

/-- C4, witness: the analyzer succeeds on the scenario apps (whose factors
are all absent, hence vacuously valid). -/
theorem analyzePermissions_totality_witness :
    isOkE (analyzePermissions scenarioApps) = true :=
  analyzePermissions_totality.1 scenarioApps (by decide)

/-- `app.riskAnalysis` is present — the filter of `getTopRiskyApps`. -/
def hasRiskAnalysis (app : App) : Bool := app.riskAnalysis.isSome

/-- C5. The Top-Risk Ranker returns exactly the take of the stable
descending sort (by `riskScore || 0`) of the apps carrying a `riskAnalysis`:
the output length is at most the limit, scores are non-increasing, every
output app carries a `riskAnalysis`, the sorted list is a permutation of the
filtered input, and apps with equal scores keep their original relative
order (the score-`v` subsequence is untouched by the sort). -/
theorem getTopRiskyApps_spec :
    ∀ (apps : List App) (limit : Nat),
      (getTopRiskyApps apps limit).length ≤ limit
      ∧ (getTopRiskyApps apps limit).Pairwise
          (fun a b => riskScoreOf b ≤ riskScoreOf a)
      ∧ (getTopRiskyApps apps limit).all hasRiskAnalysis = true
      ∧ getTopRiskyApps apps limit =
          (sortDesc riskScoreOf (apps.filter hasRiskAnalysis)).take limit
      ∧ (sortDesc riskScoreOf (apps.filter hasRiskAnalysis)).Perm
          (apps.filter hasRiskAnalysis)
      ∧ ∀ v : Int,
          (sortDesc riskScoreOf (apps.filter hasRiskAnalysis)).filter
              (fun a => riskScoreOf a == v) =
            (apps.filter hasRiskAnalysis).filter (fun a => riskScoreOf a == v) := by
  intro apps limit
  refine ⟨?_, ?_, ?_, rfl, sortDesc_perm _ _, fun v => sortDesc_filter _ _ v⟩
  · exact List.length_take_le limit _
  · exact (sortDesc_pairwise riskScoreOf _).sublist (List.take_sublist _ _)
  · rw [List.all_eq_true]
    intro a ha
    have h1 : a ∈ sortDesc riskScoreOf (apps.filter hasRiskAnalysis) :=
      List.take_subset _ _ ha
    have h2 : a ∈ apps.filter hasRiskAnalysis :=
      (sortDesc_perm riskScoreOf _).mem_iff.1 h1
    exact (List.mem_filter.1 h2).2

/-- C7. On every input whose risk factors are well-formed (so the analyzer
returns at all), the prevalence count of a permission equals the number of
apps whose deduplicated permission set contains it; the keys of the count
table appear in first-encountered order; and `mostCommon` is the first 10 of
the stable descending sort of the table — sorted non-increasing, at most 10
long, with tied counts keeping the first-encountered order (the count-`v`
subsequence of the sort equals that of the table). -/
theorem analyzePermissions_prevalence :
    ∀ (apps : List App) (r : PermissionAnalysis),
      (∀ a ∈ apps, validFactors a = true) →
      analyzePermissions apps = .ok r →
      (∀ p : String, lookupD r.permissionCount p =
          (apps.filter (fun a => decide (p ∈ jsDedup (a.permissions.getD [])))).length)
      ∧ r.permissionCount.map Prod.fst =
          jsDedup (apps.flatMap (fun a => a.permissions.getD []))
      ∧ r.mostCommon = (sortDesc (fun e => ((e.2 : Int))) r.permissionCount).take 10
      ∧ r.mostCommon.length ≤ 10
      ∧ r.mostCommon.Pairwise (fun d e => e.2 ≤ d.2)
      ∧ ∀ v : Int,
          (sortDesc (fun e => ((e.2 : Int))) r.permissionCount).filter
              (fun e => (e.2 : Int) == v) =
            r.permissionCount.filter (fun e => (e.2 : Int) == v) := by
  intro apps r hvalid hok
  rw [analyzePermissions_ok apps hvalid] at hok
  have hr : r = analyzePure apps := (Except.ok.inj hok).symm
  subst hr
  have hcounts : (analyzePure apps).permissionCount = apps.foldl countsStep [] := by
    simp only [analyzePure]
    exact counts_foldl apps ([], ⟨[], [], []⟩)
  refine ⟨?_, ?_, rfl, List.length_take_le _ _, ?_, ?_⟩
  · intro p
    rw [hcounts, lookupD_counts]
    simp [lookupD]
  · rw [hcounts, keys_counts]
    simp [jsDedup]
  · have hp := (sortDesc_pairwise (fun e => ((e.2 : Int)))
        (analyzePure apps).permissionCount).sublist (List.take_sublist 10 _)
    refine hp.imp ?_
    intro d e h
    exact_mod_cast h
  · intro v
    exact sortDesc_filter _ _ v

/-- C7, witness: the prevalence characterisation at the scenario apps for
the CAMERA permission. -/
theorem analyzePermissions_prevalence_witness :
    lookupD (analyzePure scenarioApps).permissionCount "CAMERA" =
      (scenarioApps.filter
        (fun a => decide ("CAMERA" ∈ jsDedup (a.permissions.getD [])))).length :=
  (analyzePermissions_prevalence scenarioApps (analyzePure scenarioApps)
    (by decide) (by rfl)).1 "CAMERA"

/-- C8. The Data Usage Summarizer: `totalWifi` and `totalMobile` format the
sums of `dataUsage.wifi` / `dataUsage.mobile` (0 defaults) over *all* apps —
independent of the top-10 truncation — `totalCombined` formats the sum of the
two totals, and `topDataConsumers` has length at most 10, is sorted
descending by `total`, and contains only entries with `total > 0`. -/
theorem summarizeDataUsage_spec :
    ∀ apps : List App,
      (summarizeDataUsage apps).totalWifi = formatBytes ((apps.map wifiOf).sum)
      ∧ (summarizeDataUsage apps).totalMobile = formatBytes ((apps.map mobileOf).sum)
      ∧ (summarizeDataUsage apps).totalCombined =
          formatBytes ((apps.map wifiOf).sum + (apps.map mobileOf).sum)
      ∧ (summarizeDataUsage apps).topDataConsumers.length ≤ 10
      ∧ (summarizeDataUsage apps).topDataConsumers.Pairwise
          (fun d e => e.total ≤ d.total)
      ∧ (summarizeDataUsage apps).topDataConsumers.all
          (fun d => decide (0 < d.total)) = true := by
  intro apps
  have hw : apps.foldl (fun acc a => acc + wifiOf a) 0 = (apps.map wifiOf).sum := by
    rw [foldl_add_map]
    omega
  have hm : apps.foldl (fun acc a => acc + mobileOf a) 0 = (apps.map mobileOf).sum := by
    rw [foldl_add_map]
    omega
  refine ⟨?_, ?_, ?_, ?_, ?_, ?_⟩
  · simp only [summarizeDataUsage, hw]
  · simp only [summarizeDataUsage, hm]
  · simp only [summarizeDataUsage, hw, hm]
  · exact List.length_take_le _ _
  · have hp := (sortDesc_pairwise (fun d => ((d.total : Int)))
        ((apps.filter hasPositiveUsage).map toConsumer)).sublist
      (List.take_sublist 10 _)
    refine hp.imp ?_
    intro d e h
    exact_mod_cast h
  · rw [List.all_eq_true]
    intro d hd
    have h1 : d ∈ sortDesc (fun d => ((d.total : Int)))
        ((apps.filter hasPositiveUsage).map toConsumer) :=
      List.take_subset _ _ hd
    have h2 : d ∈ (apps.filter hasPositiveUsage).map toConsumer :=
      (sortDesc_perm _ _).mem_iff.1 h1
    obtain ⟨a, ha, rfl⟩ := List.mem_map.1 h2
    have hpa : hasPositiveUsage a = true := (List.mem_filter.1 ha).2
    unfold hasPositiveUsage at hpa
    rcases hdu : a.dataUsage with _ | du
    · rw [hdu] at hpa
      simp at hpa
    · rw [hdu] at hpa
      simp only [decide_eq_true_eq] at hpa
      simp only [toConsumer, totalOf, hdu, Option.some_bind, decide_eq_true_eq]
      exact hpa

/-- A synthetic inventory app, used to instantiate the 45-app scenario. -/
def mkInvApp (i : Nat) : App :=
  { name := some ("App " ++ toString i), appName := none,
    packageName := some ("com.example.app" ++ toString i), category := some "Tools",
    permissions := some ["INTERNET"], riskAnalysis := none, dataUsage := none }

/-- 45 distinct inventory apps. -/
def invApps45 : List App := (List.range 45).map mkInvApp

/-- C10. The full-inventory section renders exactly the first
`min 30 length` apps, in original input order (row `i` is the rendering of
input app `i`), with a trailer row if and only if the input exceeds 30 apps,
carrying the count `length − 30`; in particular 45 apps yield exactly 30 rows
plus one "... and 15 more apps" trailer. -/
theorem inventory_spec :
    (∀ apps : List App,
      (inventoryRows apps).length = min 30 apps.length
      ∧ (∀ i : Nat, i < 30 →
          (inventoryRows apps)[i]? = (apps[i]?).map (inventoryRow i))
      ∧ ((inventoryTrailer apps).isSome ↔ 30 < apps.length)
      ∧ (30 < apps.length → inventoryTrailer apps =
          some ("<tr><td colspan=\"5\" style=\"text-align: center; font-style: italic; color: #666;\">... and "
            ++ toString (apps.length - 30) ++ " more apps</td></tr>")))
    ∧ (inventoryRows invApps45).length = 30
    ∧ inventoryTrailer invApps45 =
        some "<tr><td colspan=\"5\" style=\"text-align: center; font-style: italic; color: #666;\">... and 15 more apps</td></tr>" := by
  have hgen : ∀ apps : List App,
      (inventoryRows apps).length = min 30 apps.length
      ∧ (∀ i : Nat, i < 30 →
          (inventoryRows apps)[i]? = (apps[i]?).map (inventoryRow i))
      ∧ ((inventoryTrailer apps).isSome ↔ 30 < apps.length)
      ∧ (30 < apps.length → inventoryTrailer apps =
          some ("<tr><td colspan=\"5\" style=\"text-align: center; font-style: italic; color: #666;\">... and "
            ++ toString (apps.length - 30) ++ " more apps</td></tr>")) := by
    intro apps
    refine ⟨?_, ?_, ?_, ?_⟩
    · unfold inventoryRows
      rw [mapIdxAux_length, List.length_take]
    · intro i hi
      unfold inventoryRows
      rw [mapIdxAux_getElem, List.getElem?_take, if_pos hi, Nat.zero_add]
    · unfold inventoryTrailer
      split
      · rename_i h
        simpa using h
      · rename_i h
        simpa using h
    · intro h
      unfold inventoryTrailer
      rw [if_pos h]
  have h45 : invApps45.length = 45 := by
    simp [invApps45]
  refine ⟨hgen, ?_, ?_⟩
  · rw [(hgen invApps45).1, h45]
    decide
  · have ht := (hgen invApps45).2.2.2 (by omega)
    rw [h45] at ht
    rw [ht]
    rfl

/-- C10, witness: row 0 of the 45-app inventory is the rendering of app 0,
and the trailer carries the count `45 − 30`. -/
theorem inventory_spec_witness :
    (inventoryRows invApps45)[0]? = (invApps45[0]?).map (inventoryRow 0)
    ∧ inventoryTrailer invApps45 =
        some ("<tr><td colspan=\"5\" style=\"text-align: center; font-style: italic; color: #666;\">... and "
          ++ toString (invApps45.length - 30) ++ " more apps</td></tr>") :=
  ⟨(inventory_spec.1 invApps45).2.1 0 (by decide),
    (inventory_spec.1 invApps45).2.2.2 (by simp [invApps45])⟩

/-- C2 (amended). Blob handling in `prepareReportData`: an absent blob — or
a present but empty-string blob, which the ternary's truthiness test treats
the same way — is replaced by the empty object, and whenever both blobs
resolve (and the risk factors are well-formed) model construction succeeds;
a present non-empty blob that parses is passed through opaquely; but a
present blob on which `JSON.parse` throws makes `prepareReportData` fail,
and `generateReport` re-raises that error — wrapped in
`PDF generation failed:` — to its caller, because no try/catch surrounds the
parse. -/
theorem prepareReportData_blobs :
    blobOrEmpty none = .ok "\x7b\x7d"
    ∧ blobOrEmpty (some "") = .ok "\x7b\x7d"
    ∧ (∀ s : String, s ≠ "" → jsonValid s = true → blobOrEmpty (some s) = .ok s)
    ∧ (∀ (settingsData scanData : Option String) (apps : List App),
        (∀ a ∈ apps, validFactors a = true) →
        isOkE (blobOrEmpty settingsData) = true →
        isOkE (blobOrEmpty scanData) = true →
        isOkE (prepareReportData settingsData scanData apps) = true)
    ∧ (∀ (s e : String), blobOrEmpty (some s) = .error e →
        ∀ (scanData : Option String) (apps : List App),
          prepareReportData (some s) scanData apps = .error e
          ∧ generateReportModel (some s) scanData apps =
              .error ("PDF generation failed: " ++ e)) := by
  refine ⟨rfl, rfl, ?_, ?_, ?_⟩
  · intro s hne hs
    simp [blobOrEmpty, jsonParseModel, hne, hs]
  · intro settingsData scanData apps hvalid h1 h2
    unfold prepareReportData
    cases hs : blobOrEmpty settingsData with
    | error e =>
      rw [hs] at h1
      simp [isOkE] at h1
    | ok v =>
      cases hc : blobOrEmpty scanData with
      | error e =>
        rw [hc] at h2
        simp [isOkE] at h2
      | ok w =>
        rw [analyzePermissions_ok apps hvalid]
        rfl
  · intro s e he scanData apps
    have hp : prepareReportData (some s) scanData apps = .error e := by
      unfold prepareReportData
      rw [he]
      rfl
    refine ⟨hp, ?_⟩
    unfold generateReportModel
    rw [hp]

/-- C2, counterexample to the claim as stated: a present but unparseable
settings blob makes the whole report request fail — the parse error is not
replaced by an empty object but propagates, wrapped, to the caller. -/
theorem prepareReportData_malformed_blob_throws :
    prepareReportData (some "not json") none [] = .error "Unexpected token in JSON"
    ∧ generateReportModel (some "not json") none [] =
        .error "PDF generation failed: Unexpected token in JSON" := by
  exact ⟨rfl, rfl⟩

/-- C2, witness: construction succeeds with an empty-string settings blob
and an absent scan blob on the scenario apps, and fails at the concrete
unparseable blob "not json". -/
theorem prepareReportData_blobs_witness :
    isOkE (prepareReportData (some "") none scenarioApps) = true
    ∧ prepareReportData (some "not json") (some "\x7b\x7d") scenarioApps =
        .error "Unexpected token in JSON" :=
  ⟨prepareReportData_blobs.2.2.2.1 (some "") none scenarioApps (by decide) rfl rfl,
    (prepareReportData_blobs.2.2.2.2 "not json" "Unexpected token in JSON" rfl
      (some "\x7b\x7d") scenarioApps).1⟩

/-- An app whose user-supplied name is an HTML script tag; it carries a
`riskAnalysis` (so it ranks among the top risky apps) and positive data
usage (so it appears among the top data consumers). -/
def evilApp : App :=
  { name := some "<script>alert(1)</script>", appName := none,
    packageName := some "com.evil.app", category := none,
    permissions := some ["CAMERA"],
    riskAnalysis := some ⟨some "HIGH_RISK", some 90, some 1, none⟩,
    dataUsage := some ⟨some 5000, some 4000, some 1000⟩ }

set_option maxRecDepth 100000 in
/-- C3, evaluated at the failing input: the "High Priority Apps" section and
the "Top Data Consumers" rows render the app name verbatim — the raw
`<script>` payload appears in the output markup of both sections — even
though `escapeHtml` exists and maps it to its escaped entities (and the
inventory rows, which do call it, contain no raw `<script>`). -/
theorem renderer_unescaped_sections :
    strContains (topPriorityAppsSection (getTopRiskyApps [evilApp] 10))
        "<script>alert(1)</script>" = true
    ∧ strContains
        (dataConsumerRows (summarizeDataUsage [evilApp]).topDataConsumers)
        "<script>alert(1)</script>" = true
    ∧ escapeHtml "<script>alert(1)</script>" = "&lt;script&gt;alert(1)&lt;/script&gt;"
    ∧ strContains (String.join (inventoryRows [evilApp])) "<script>" = false := by
  refine ⟨by decide, by decide, by decide, by decide⟩

/-- C1, witness: disjointness at the weird app, and the exactly-one-group
sum at the (fully recognised) scenario apps. -/
theorem categorizeByRisk_partition_witness :
    tierCount weirdApp ≤ 1
    ∧ (categorizeByRisk scenarioApps).highRisk.length +
        (categorizeByRisk scenarioApps).mediumRisk.length +
        (categorizeByRisk scenarioApps).lowRisk.length +
        (categorizeByRisk scenarioApps).noRisk.length =
        (calculateStatistics scenarioApps).totalApps :=
  ⟨categorizeByRisk_partition.1 weirdApp,
    categorizeByRisk_partition.2.2.2 scenarioApps (by decide)⟩
